import Mathlib

/-!
Verification of `plot_topdown.py`: a script that extracts the "Back-End Bound"
percentage from Topdown summary files, aggregates it per application directory,
appends the arithmetic mean, and renders a bar chart saved to three image files.

The Python code is shallowly embedded: file reads are `Except String String`
values (an `error` models a raised exception), Python floats obtained from
digits-and-dots captures are exact rationals `ℚ`, and the side effects of
`main` (printing, exiting, saving figures) are recorded in a result structure.
-/

namespace PlotTopdown

/-- Characters matched by the regex class `\s` (ASCII whitespace). -/
def isSpaceChar (c : Char) : Bool :=
  c = ' ' ∨ c = '\t' ∨ c = '\n' ∨ c = '\r' ∨ c = '\x0b' ∨ c = '\x0c'

/-- Characters matched by the regex class `[\d.]`: a decimal digit or a dot. -/
def isDigitDot (c : Char) : Bool :=
  c.isDigit ∨ c = '.'

/-- The literal part of the pattern searched for by `extract_backend_bound`. -/
def boundLiteral : List Char := "Back-End Bound:".data

/-- Drop a literal from the front of a character list, or fail. -/
def stripLiteral : List Char → List Char → Option (List Char)
  | [], s => some s
  | _ :: _, [] => none
  | a :: as, b :: bs => if a = b then stripLiteral as bs else none

/-- Match the regex `Back-End Bound:\s+([\d.]+)%` at the start of `s`,
returning the captured group. Since the character classes `\s` and `[\d.]`
are disjoint and `%` belongs to neither, the greedy match is exact:
the literal, then a maximal nonempty run of whitespace, then a maximal
nonempty run of digits/dots (the capture), then `%`. -/
def matchAt (s : List Char) : Option (List Char) :=
  match stripLiteral boundLiteral s with
  | none => none
  | some rest =>
    if (rest.takeWhile isSpaceChar).isEmpty then none
    else
      let rest2 := rest.dropWhile isSpaceChar
      let cap := rest2.takeWhile isDigitDot
      if cap.isEmpty then none
      else
        match rest2.dropWhile isDigitDot with
        | [] => none
        | c :: _ => if c = '%' then some cap else none

/-- Model of `re.search`: try `matchAt` at each position left to right and
return the capture of the leftmost successful match. -/
def reSearch : List Char → Option (List Char)
  | [] => matchAt []
  | a :: t =>
    match matchAt (a :: t) with
    | some cap => some cap
    | none => reSearch t

/-- Numeric value of a list of decimal digits (most significant first). -/
def digitsToNat (l : List Char) : ℕ :=
  l.foldl (fun a c => 10 * a + (c.toNat - 48)) 0

/-- Exact decimal value of a digits-and-dots capture under Python `float()`:
such a string converts exactly when it contains at most one dot and at least
one digit (`float(".")` and `float("1.2.3")` raise `ValueError`), and this
function returns its exact decimal value as a rational. Finite doubles are
abstracted by their exact decimal values; the saturation of `float()` to
`inf` at the IEEE double overflow threshold is modelled on top of this
function by `pyFloatSat`. -/
def pyFloatOfCapture (l : List Char) : Option ℚ :=
  if ¬ l.all isDigitDot then none
  else if l.count '.' = 0 then
    if l.isEmpty then none else some (digitsToNat l : ℚ)
  else if l.count '.' = 1 then
    if (l.takeWhile (· ≠ '.')).isEmpty ∧ ((l.dropWhile (· ≠ '.')).tail).isEmpty then none
    else some ((digitsToNat (l.takeWhile (· ≠ '.')) : ℚ) +
      (digitsToNat ((l.dropWhile (· ≠ '.')).tail) : ℚ) /
        (10 : ℚ) ^ ((l.dropWhile (· ≠ '.')).tail).length)
  else none

/-- Result of a successful Python `float()` conversion: a finite double
(abstracted by its exact decimal value) or `+inf`, which `float()` produces
by saturation when the decimal value of the string is too large for a
double (`float("9" * 400)` is `inf`, not an exception). -/
inductive PyFloat where
  | finite (q : ℚ)
  | inf
deriving DecidableEq, Repr

/-- Smallest magnitude at which IEEE-754 round-to-nearest-even overflows a
double: every value of at least `2 ^ 1024 - 2 ^ 970` rounds to `+inf` (the
largest finite double is `2 ^ 1024 - 2 ^ 971`, and the tie at the midpoint
rounds to the even neighbour `2 ^ 1024`). -/
def doubleOverflowThreshold : ℚ := 2 ^ 1024 - 2 ^ 970

/-- Model of Python `float()` on a digits-and-dots capture including the
overflow behaviour: conversion failures give `none`, values below the
overflow threshold give the finite double abstracted by its exact decimal
value, and values at or above the threshold saturate to `+inf`. -/
def pyFloatSat (l : List Char) : Option PyFloat :=
  match pyFloatOfCapture l with
  | none => none
  | some q =>
    some (if q < doubleOverflowThreshold then PyFloat.finite q else PyFloat.inf)

/-- Observable outcome of one call to `extract_backend_bound`: the returned
value, the error lines printed, and how many times the file was read. -/
structure ExtractResult where
  value : Option ℚ
  errors : List String
  readAttempts : ℕ
deriving DecidableEq, Repr

/-- Embedding of `extract_backend_bound(summary_file)`. The whole body sits
in one `try` block: a failed read, or a `ValueError` from `float()` on the
captured group, is caught, prints one error line, and yields `None`. The file
is opened and read exactly once, and the function always returns (never
propagates an exception), which the embedding reflects by returning a total
`ExtractResult`. -/
def extract_backend_bound (summary_file : String)
    (readFile : String → Except String String) : ExtractResult :=
  match readFile summary_file with
  | .error e => ⟨none, ["Error reading " ++ summary_file ++ ": " ++ e], 1⟩
  | .ok content =>
    match reSearch content.data with
    | none => ⟨none, [], 1⟩
    | some cap =>
      match pyFloatOfCapture cap with
      | some v => ⟨some v, [], 1⟩
      | none =>
        ⟨none, ["Error reading " ++ summary_file ++
          ": could not convert string to float: " ++ String.mk cap], 1⟩

/-- Value returned by `extract_backend_bound` under the float model with
overflow saturation: the same control flow as `extract_backend_bound` (same
read, same regex search, same conversion of the capture), with the capture
converted by `pyFloatSat`, so that what the Python program actually returns
on an overflowing capture — `inf` — is representable. -/
def extract_backend_bound_sat (summary_file : String)
    (readFile : String → Except String String) : Option PyFloat :=
  match readFile summary_file with
  | .error _ => none
  | .ok content =>
    match reSearch content.data with
    | none => none
    | some cap => pyFloatSat cap

/-- The five-entry map from `get_full_app_name`, mapping short app names to
full display names. -/
def name_map : List (String × String) :=
  [("bfs_gnutella31", "breadth first search"),
   ("dfs_gnutella31", "depth first search"),
   ("pr_gnutella31", "pagerank"),
   ("tc_gnutella31", "triangle counting"),
   ("sssp_ego_fb", "single source shortest path")]

/-- Lookup in an association list by key, first match wins (Python `dict`
lookup for the duplicate-free lists built below). -/
def dictFind {β : Type} (d : List (String × β)) (k : String) : Option β :=
  match d with
  | [] => none
  | p :: t => if p.1 = k then some p.2 else dictFind t k

/-- Embedding of `get_full_app_name(app)`: `name_map.get(app, app)`. -/
def get_full_app_name (app : String) : String :=
  (dictFind name_map app).getD app

/-- Test whether a string begins with the path separator. -/
def beginsWithSep (b : String) : Bool :=
  match b.data with
  | [] => false
  | c :: _ => c = '/'

/-- Test whether a string ends with the path separator. -/
def finishesWithSep (a : String) : Bool :=
  match a.data.getLast? with
  | some c => c = '/'
  | none => false

/-- Embedding of POSIX `os.path.join(a, b)`: an absolute second component
replaces the first, otherwise the components are joined with `/` unless the
first is empty or already ends with `/`. -/
def os_path_join (a b : String) : String :=
  if beginsWithSep b then b
  else if a = "" ∨ finishesWithSep a then a ++ b
  else a ++ "/" ++ b

/-- Abstraction of the filesystem as seen by `main`: the listing of the base
directory, the directory test, the existence test, and file reading (where
`Except.error` models a raised exception). -/
structure FS where
  listdir : List String
  isDir : String → Bool
  pathExists : String → Bool
  readFile : String → Except String String

/-- Python `dict` assignment `d[k] = v`: overwrite the entry if the key is
present, otherwise append it. -/
def dictInsert (d : List (String × ℚ)) (k : String) (v : ℚ) : List (String × ℚ) :=
  match d with
  | [] => [(k, v)]
  | p :: t => if p.1 = k then (k, v) :: t else p :: dictInsert t k v

/-- Lexicographic order on character lists by code point, as Python compares
strings: `[] ≤ anything`; otherwise compare head code points and recurse on
equal heads. -/
def lexLe : List Char → List Char → Bool
  | [], _ => true
  | _ :: _, [] => false
  | a :: as, b :: bs => if a = b then lexLe as bs else decide (a.toNat < b.toNat)

/-- Python `<=` on strings: code-point lexicographic comparison. -/
def strLe (a b : String) : Bool := lexLe a.data b.data

instance strLeDecidable : DecidableRel (fun a b : String => strLe a b = true) :=
  fun _ _ => instDecidableEqBool _ _

/-- Python `sorted` on strings: ascending lexicographic order of code points. -/
def sortedStrings (l : List String) : List String :=
  l.insertionSort (fun a b => strLe a b = true)

/-- Path of the summary file looked up for the subdirectory `app_dir`. -/
def summaryPath (base_dir app_dir : String) : String :=
  os_path_join (os_path_join base_dir app_dir) (app_dir ++ "_topdown_summary.txt")

/-- Body of the subdirectory loop of `main`: skip non-directories, skip
entries whose summary file does not exist, skip files from which no value is
extracted, and otherwise store the value under the directory name. -/
def scanStep (base_dir : String) (fs : FS) (acc : List (String × ℚ))
    (app_dir : String) : List (String × ℚ) :=
  if ¬ fs.isDir (os_path_join base_dir app_dir) then acc
  else if fs.pathExists (summaryPath base_dir app_dir) then
    match (extract_backend_bound (summaryPath base_dir app_dir) fs.readFile).value with
    | some v => dictInsert acc app_dir v
    | none => acc
  else acc

/-- The `apps_data` dictionary built by the subdirectory loop of `main`,
iterating over `sorted(os.listdir(base_dir))`. -/
def apps_data (base_dir : String) (fs : FS) : List (String × ℚ) :=
  (sortedStrings fs.listdir).foldl (scanStep base_dir fs) []

/-- Display label of the appended average bar, `r'$\mathbf{Average}$'`. -/
def boldAverage : String := "$\\mathbf\x7bAverage\x7d$"

/-- Bar x positions `[i * bar_spacing for i in range(len(apps))]` with
`bar_spacing = 0.1`. -/
def xPositionsOf (n : ℕ) : List ℚ :=
  (List.range n).map fun (i : ℕ) => (i : ℚ) / 10

/-- Observable outcome of one run of `main`: the exit status (`some 1` for
`sys.exit(1)`, `none` for a normal run), the `apps` and `values` lists after
the average is appended, the x tick labels, the printed summary rows (display
name and value, with the average row kept separately), the error lines
printed, the bar x positions, and the figure files saved. -/
structure MainResult where
  exitCode : Option ℕ
  apps : List String
  values : List ℚ
  apps_labels : List String
  summaryRows : List (String × ℚ)
  averageRow : Option (String × ℚ)
  errorPrints : List String
  xPositions : List ℚ
  savedFiles : List String
deriving DecidableEq, Repr

/-- The `apps` list of `main` just before the average is appended:
`sorted(apps_data.keys())`. -/
def sortedApps (base_dir : String) (fs : FS) : List String :=
  sortedStrings ((apps_data base_dir fs).map Prod.fst)

/-- The `values` list of `main` just before the average is appended:
`[apps_data[app] for app in apps]`. The `getD 0` default is never taken,
since every `app` is a key of `apps_data`. -/
def sortedValues (base_dir : String) (fs : FS) : List ℚ :=
  (sortedApps base_dir fs).map fun app => (dictFind (apps_data base_dir fs) app).getD 0

/-- The `average_value` computed by `main`: `sum(values) / len(values)`. -/
def average_value (base_dir : String) (fs : FS) : ℚ :=
  (sortedValues base_dir fs).sum / ((sortedValues base_dir fs).length : ℚ)

/-- Embedding of `main()` after the base directory has been chosen from
`sys.argv`. A missing base directory or an empty `apps_data` prints an error
and exits with status 1 before any figure is produced; otherwise the sorted
apps and their values get the average appended, the summary is printed, and
the chart is saved as three files. -/
def main_run (base_dir : String) (fs : FS) : MainResult :=
  if ¬ fs.pathExists base_dir then
    ⟨some 1, [], [], [], [], none,
      ["Error: Directory " ++ base_dir ++ " not found!"], [], []⟩
  else if (apps_data base_dir fs).isEmpty then
    ⟨some 1, [], [], [], [], none,
      ["No data found! Check if summary files exist and contain Back-End Bound metrics."],
      [], []⟩
  else
    ⟨none,
      sortedApps base_dir fs ++ ["Average"],
      sortedValues base_dir fs ++ [average_value base_dir fs],
      (sortedApps base_dir fs).map get_full_app_name ++ [boldAverage],
      ((sortedApps base_dir fs).zip (sortedValues base_dir fs)).map
        (fun p => (get_full_app_name p.1, p.2)),
      some ("Average", average_value base_dir fs),
      [],
      xPositionsOf (sortedApps base_dir fs ++ ["Average"]).length,
      ["backend_bound_plot.png", "backend_bound_plot.pdf", "backend_bound_plot.eps"]⟩

/-- Choice of the base directory at the top of `main`: `sys.argv[1]` when
given, else `~/Topdown/crono-results` expanded against the home directory. -/
def choose_base_dir (argv : List String) (home : String) : String :=
  if argv.length > 1 then argv.getD 1 "" else home ++ "/Topdown/crono-results"

/-- Value that the subdirectory loop of `main` would store for one listing
entry: `none` for non-directories, for entries without a summary file, and
for files from which no value is extracted. `scanStep` acts by `dictInsert`
exactly when this is `some`. -/
def entryVal (base_dir : String) (fs : FS) (app_dir : String) : Option ℚ :=
  if ¬ fs.isDir (os_path_join base_dir app_dir) then none
  else if fs.pathExists (summaryPath base_dir app_dir) then
    (extract_backend_bound (summaryPath base_dir app_dir) fs.readFile).value
  else none

/-- Example directory predicate for concrete runs: two app directories and
one directory without a summary file. -/
def exIsDir (p : String) : Bool :=
  p = "/base/appA" ∨ p = "/base/appB" ∨ p = "/base/nofile"

/-- Example existence predicate: the base directory and the two summary
files exist. -/
def exPathExists (p : String) : Bool :=
  p = "/base" ∨ p = "/base/appA/appA_topdown_summary.txt" ∨
    p = "/base/appB/appB_topdown_summary.txt"

/-- Example reader: two well-formed summary files, everything else raises. -/
def exRead (p : String) : Except String String :=
  if p = "/base/appA/appA_topdown_summary.txt" then
    Except.ok "Back-End Bound: 31.4% of Pipeline Slots"
  else if p = "/base/appB/appB_topdown_summary.txt" then
    Except.ok "Back-End Bound: 10.6%"
  else Except.error "missing"

/-- Example filesystem with four listing entries. -/
def exFS : FS := ⟨["appB", "appA", "notdir", "nofile"], exIsDir, exPathExists, exRead⟩

/-- The same filesystem contents as `exFS` with the listing enumerated in a
different order. -/
def exFS2 : FS := ⟨["appA", "nofile", "appB", "notdir"], exIsDir, exPathExists, exRead⟩

/-- Reader returning a summary whose metric is the integer 7. -/
def read7 : String → Except String String := fun _ => Except.ok "Back-End Bound: 7%"

/-- A digits-only capture whose decimal value is `10 ^ 399`, far above the
IEEE double overflow threshold: the digit `1` followed by 399 zeros. -/
def capOverflow : List Char := '1' :: List.replicate 399 '0'

/-- Summary text whose captured percentage overflows a double:
`Back-End Bound: 10…0%` with 399 zeros. -/
def overflowContent : String :=
  String.mk ("Back-End Bound: ".data ++ capOverflow ++ ['%'])

/-! ### Order properties of the string comparison used by `sorted` -/

theorem Char.toNat_inj_of_eq {a b : Char} (h : a.toNat = b.toNat) : a = b := by
  have := congrArg Char.ofNat h
  simpa [Char.ofNat_toNat] using this

theorem lexLe_total : ∀ as bs : List Char, lexLe as bs = true ∨ lexLe bs as = true
  | [], _ => Or.inl rfl
  | _ :: _, [] => Or.inr rfl
  | a :: as, b :: bs => by
    by_cases h : a = b
    · subst h
      simpa [lexLe] using lexLe_total as bs
    · have h2 : ¬ b = a := fun e => h e.symm
      have h3 : a.toNat ≠ b.toNat := fun e => h (Char.toNat_inj_of_eq e)
      rcases Nat.lt_or_ge a.toNat b.toNat with hlt | hge
      · left; simp [lexLe, h, hlt]
      · right
        have : b.toNat < a.toNat := lt_of_le_of_ne hge fun e => h3 e.symm
        simp [lexLe, h2, this]

theorem lexLe_trans : ∀ as bs cs : List Char,
    lexLe as bs = true → lexLe bs cs = true → lexLe as cs = true
  | [], _, _, _, _ => rfl
  | _ :: _, [], _, h1, _ => by simp [lexLe] at h1
  | _ :: _, _ :: _, [], _, h2 => by simp [lexLe] at h2
  | a :: as, b :: bs, c :: cs, h1, h2 => by
    by_cases hab : a = b <;> by_cases hbc : b = c
    · subst hab; subst hbc
      simp only [lexLe, if_pos rfl] at h1 h2 ⊢
      exact lexLe_trans as bs cs h1 h2
    · subst hab
      simp only [lexLe, if_pos rfl, if_neg hbc] at h2 ⊢
      exact h2
    · subst hbc
      simp only [lexLe, if_pos rfl, if_neg hab] at h1 ⊢
      exact h1
    · simp only [lexLe, if_neg hab, if_neg hbc, decide_eq_true_eq] at h1 h2
      have hac : a.toNat < c.toNat := Nat.lt_trans h1 h2
      have hne : a ≠ c := by
        intro e
        rw [e] at hac
        exact Nat.lt_irrefl _ hac
      simp [lexLe, if_neg hne, hac]

theorem lexLe_antisymm : ∀ as bs : List Char,
    lexLe as bs = true → lexLe bs as = true → as = bs
  | [], [], _, _ => rfl
  | [], _ :: _, _, h2 => by simp [lexLe] at h2
  | _ :: _, [], h1, _ => by simp [lexLe] at h1
  | a :: as, b :: bs, h1, h2 => by
    by_cases hab : a = b
    · subst hab
      simp only [lexLe, if_pos rfl] at h1 h2
      exact congrArg (a :: ·) (lexLe_antisymm as bs h1 h2)
    · have h2' : ¬ b = a := fun e => hab e.symm
      simp only [lexLe, if_neg hab, if_neg h2', decide_eq_true_eq] at h1 h2
      exact absurd (Nat.lt_trans h1 h2) (Nat.lt_irrefl _)

instance strLeTotal : IsTotal String (fun a b => strLe a b = true) :=
  ⟨fun a b => lexLe_total a.data b.data⟩

instance strLeTrans : IsTrans String (fun a b => strLe a b = true) :=
  ⟨fun a b c => lexLe_trans a.data b.data c.data⟩

theorem String.eq_of_data_eq : ∀ {a b : String}, a.data = b.data → a = b
  | ⟨_⟩, ⟨_⟩, h => congrArg String.mk h

instance strLeAntisymm : IsAntisymm String (fun a b => strLe a b = true) :=
  ⟨fun a b h1 h2 => String.eq_of_data_eq (lexLe_antisymm a.data b.data h1 h2)⟩

theorem sortedStrings_perm (l : List String) : (sortedStrings l).Perm l :=
  List.perm_insertionSort _ l

theorem sortedStrings_sorted (l : List String) :
    List.Sorted (fun a b => strLe a b = true) (sortedStrings l) :=
  List.sorted_insertionSort _ l

theorem sortedStrings_eq_of_perm {l1 l2 : List String} (h : l1.Perm l2) :
    sortedStrings l1 = sortedStrings l2 :=
  List.eq_of_perm_of_sorted
    ((sortedStrings_perm l1).trans (h.trans (sortedStrings_perm l2).symm))
    (sortedStrings_sorted l1) (sortedStrings_sorted l2)

theorem sortedStrings_length (l : List String) : (sortedStrings l).length = l.length :=
  (sortedStrings_perm l).length_eq

theorem mem_sortedStrings {l : List String} {a : String} :
    a ∈ sortedStrings l ↔ a ∈ l :=
  (sortedStrings_perm l).mem_iff

/-! ### Dictionary lemmas and the aggregation loop -/

theorem dictFind_dictInsert_self (d : List (String × ℚ)) (k : String) (v : ℚ) :
    dictFind (dictInsert d k v) k = some v := by
  induction d with
  | nil => simp [dictInsert, dictFind]
  | cons p t ih =>
    by_cases h : p.1 = k
    · simp [dictInsert, h, dictFind]
    · simp [dictInsert, h, dictFind, ih]

theorem dictFind_dictInsert_ne (d : List (String × ℚ)) (k k' : String) (v : ℚ)
    (h : k' ≠ k) : dictFind (dictInsert d k v) k' = dictFind d k' := by
  have hk : ¬ k = k' := fun e => h e.symm
  induction d with
  | nil => simp [dictInsert, dictFind, hk]
  | cons p t ih =>
    by_cases hp : p.1 = k
    · have hp' : ¬ p.1 = k' := fun e => h (e.symm.trans hp)
      simp [dictInsert, hp, dictFind, hk, hp']
    · simp [dictInsert, hp, dictFind, ih]

theorem keys_dictInsert (d : List (String × ℚ)) (k : String) (v : ℚ) :
    (k ∈ d.map Prod.fst ∧ (dictInsert d k v).map Prod.fst = d.map Prod.fst) ∨
    (k ∉ d.map Prod.fst ∧ (dictInsert d k v).map Prod.fst = d.map Prod.fst ++ [k]) := by
  induction d with
  | nil => simp [dictInsert]
  | cons p t ih =>
    by_cases hp : p.1 = k
    · left
      constructor
      · simp [hp]
      · simp [dictInsert, hp]
    · rcases ih with ⟨hm, he⟩ | ⟨hm, he⟩
      · left
        constructor
        · simp [hm]
        · simp [dictInsert, hp, he]
      · right
        constructor
        · simp only [List.map_cons, List.mem_cons]
          rintro (h1 | h2)
          · exact hp h1.symm
          · exact hm h2
        · simp [dictInsert, hp, he]

theorem nodup_keys_dictInsert {d : List (String × ℚ)} {k : String} {v : ℚ}
    (h : (d.map Prod.fst).Nodup) : ((dictInsert d k v).map Prod.fst).Nodup := by
  rcases keys_dictInsert d k v with ⟨_, he⟩ | ⟨hn, he⟩
  · rw [he]; exact h
  · rw [he]
    simp [List.nodup_append, h, hn]

theorem scanStep_eq (base_dir : String) (fs : FS) (acc : List (String × ℚ))
    (app_dir : String) :
    scanStep base_dir fs acc app_dir =
      match entryVal base_dir fs app_dir with
      | some v => dictInsert acc app_dir v
      | none => acc := by
  unfold scanStep entryVal
  by_cases h1 : fs.isDir (os_path_join base_dir app_dir) = true
  · by_cases h2 : fs.pathExists (summaryPath base_dir app_dir) = true
    · simp [h1, h2]
    · simp [h1, h2]
  · simp [h1]

theorem dictFind_foldl_scan (base_dir : String) (fs : FS) :
    ∀ (l : List String) (acc : List (String × ℚ)) (k : String),
    dictFind (l.foldl (scanStep base_dir fs) acc) k =
      (if k ∈ l ∧ (entryVal base_dir fs k).isSome = true
       then entryVal base_dir fs k else dictFind acc k)
  | [], acc, k => by simp
  | a :: t, acc, k => by
    rw [List.foldl_cons, dictFind_foldl_scan base_dir fs t (scanStep base_dir fs acc a) k]
    by_cases hk : k ∈ t ∧ (entryVal base_dir fs k).isSome = true
    · rw [if_pos hk, if_pos ⟨List.mem_cons_of_mem a hk.1, hk.2⟩]
    · rw [if_neg hk, scanStep_eq]
      by_cases hka : k = a
      · subst hka
        cases he : entryVal base_dir fs k with
        | some v =>
          show dictFind (dictInsert acc k v) k = _
          rw [dictFind_dictInsert_self]
          rw [if_pos ⟨List.mem_cons_self k t, rfl⟩]
        | none =>
          show dictFind acc k = _
          rw [if_neg (fun hc => Bool.false_ne_true hc.2)]
      · cases he : entryVal base_dir fs a with
        | some v =>
          show dictFind (dictInsert acc a v) k = _
          rw [dictFind_dictInsert_ne acc a k v hka]
          rw [if_neg (fun hc => hk ⟨(List.mem_cons.mp hc.1).resolve_left hka, hc.2⟩)]
        | none =>
          show dictFind acc k = _
          rw [if_neg (fun hc => hk ⟨(List.mem_cons.mp hc.1).resolve_left hka, hc.2⟩)]

theorem dictFind_apps_data (base_dir : String) (fs : FS) (k : String) :
    dictFind (apps_data base_dir fs) k =
      (if k ∈ fs.listdir ∧ (entryVal base_dir fs k).isSome = true
       then entryVal base_dir fs k else none) := by
  unfold apps_data
  rw [dictFind_foldl_scan]
  simp only [mem_sortedStrings]
  rfl

theorem nodup_keys_foldl_scan (base_dir : String) (fs : FS) :
    ∀ (l : List String) (acc : List (String × ℚ)),
    (acc.map Prod.fst).Nodup → ((l.foldl (scanStep base_dir fs) acc).map Prod.fst).Nodup
  | [], _, h => h
  | a :: t, acc, h => by
    rw [List.foldl_cons]
    apply nodup_keys_foldl_scan base_dir fs t
    rw [scanStep_eq]
    cases he : entryVal base_dir fs a with
    | some v => exact nodup_keys_dictInsert h
    | none => exact h

theorem nodup_keys_apps_data (base_dir : String) (fs : FS) :
    ((apps_data base_dir fs).map Prod.fst).Nodup :=
  nodup_keys_foldl_scan base_dir fs _ [] List.nodup_nil

theorem map_dictFind_keys : ∀ (d : List (String × ℚ)),
    (d.map Prod.fst).Nodup →
    (d.map Prod.fst).map (fun k => (dictFind d k).getD 0) = d.map Prod.snd
  | [], _ => rfl
  | p :: t, h => by
    have h' : (p.1 :: List.map Prod.fst t).Nodup := h
    have hcons := List.nodup_cons.mp h'
    simp only [List.map_cons]
    congr 1
    · simp [dictFind]
    · have hmap : (t.map Prod.fst).map (fun k => (dictFind (p :: t) k).getD 0) =
          (t.map Prod.fst).map (fun k => (dictFind t k).getD 0) :=
        List.map_congr_left (fun k hk => by
          have hne : ¬ p.1 = k := fun e => hcons.1 (by rw [e]; exact hk)
          simp [dictFind, hne])
      rw [hmap, map_dictFind_keys t hcons.2]

theorem values0_perm (d : List (String × ℚ)) (h : (d.map Prod.fst).Nodup) :
    ((sortedStrings (d.map Prod.fst)).map (fun k => (dictFind d k).getD 0)).Perm
      (d.map Prod.snd) := by
  have hp := (sortedStrings_perm (d.map Prod.fst)).map (fun k => (dictFind d k).getD 0)
  rw [map_dictFind_keys d h] at hp
  exact hp

/-! ### Leftmost-match property of the regex search and parse positivity -/

theorem matchAt_nil : matchAt [] = none := by
  decide

theorem reSearch_eq_none_of : ∀ (s : List Char),
    (∀ i, matchAt (s.drop i) = none) → reSearch s = none
  | [], h => h 0
  | a :: t, h => by
    have h0 := h 0
    simp only [List.drop_zero] at h0
    show (match matchAt (a :: t) with
      | some cap => some cap
      | none => reSearch t) = none
    rw [h0]
    exact reSearch_eq_none_of t (fun i => h (i + 1))

theorem reSearch_eq_some_of : ∀ (s : List Char) (i : ℕ) (cap : List Char),
    matchAt (s.drop i) = some cap → (∀ j, j < i → matchAt (s.drop j) = none) →
    reSearch s = some cap
  | [], i, cap, h, _ => by
    rw [List.drop_nil, matchAt_nil] at h
    cases h
  | a :: t, 0, cap, h, _ => by
    simp only [List.drop_zero] at h
    show (match matchAt (a :: t) with
      | some c => some c
      | none => reSearch t) = some cap
    rw [h]
  | a :: t, i + 1, cap, h, hmin => by
    have h0 := hmin 0 (Nat.succ_pos i)
    simp only [List.drop_zero] at h0
    show (match matchAt (a :: t) with
      | some c => some c
      | none => reSearch t) = some cap
    rw [h0]
    exact reSearch_eq_some_of t i cap h (fun j hj => hmin (j + 1) (Nat.succ_lt_succ hj))

theorem pyFloatOfCapture_nonneg (l : List Char) (v : ℚ)
    (h : pyFloatOfCapture l = some v) : 0 ≤ v := by
  unfold pyFloatOfCapture at h
  split_ifs at h
  · rw [Option.some_inj] at h
    rw [← h]
    positivity
  · rw [Option.some_inj] at h
    rw [← h]
    positivity

theorem foldl_digit_zeros (a : ℕ) : ∀ n : ℕ,
    List.foldl (fun x c => 10 * x + (c.toNat - 48)) a (List.replicate n '0') =
      a * 10 ^ n := by
  intro n
  induction n generalizing a with
  | zero => simp
  | succ n ih =>
    rw [List.replicate_succ, List.foldl_cons, ih]
    have h0 : ('0'.toNat - 48 : ℕ) = 0 := rfl
    rw [h0, pow_succ]
    ring

theorem digitsToNat_capOverflow : digitsToNat capOverflow = 10 ^ 399 := by
  unfold digitsToNat capOverflow
  rw [List.foldl_cons]
  have h1 : (10 * 0 + ('1'.toNat - 48) : ℕ) = 1 := rfl
  rw [h1, foldl_digit_zeros 1 399, one_mul]

set_option maxRecDepth 40000 in
theorem pyFloatOfCapture_capOverflow :
    pyFloatOfCapture capOverflow = some ((digitsToNat capOverflow : ℚ)) := by
  unfold pyFloatOfCapture
  rw [if_neg (by decide), if_pos (by decide), if_neg (by decide)]

theorem threshold_le_capOverflow :
    doubleOverflowThreshold ≤ ((digitsToNat capOverflow : ℕ) : ℚ) := by
  rw [digitsToNat_capOverflow]
  unfold doubleOverflowThreshold
  push_cast
  norm_num

theorem pyFloatSat_capOverflow : pyFloatSat capOverflow = some PyFloat.inf := by
  unfold pyFloatSat
  rw [pyFloatOfCapture_capOverflow]
  show some (if ((digitsToNat capOverflow : ℚ)) < doubleOverflowThreshold
    then PyFloat.finite ((digitsToNat capOverflow : ℚ)) else PyFloat.inf) =
    some PyFloat.inf
  rw [if_neg (not_lt.mpr threshold_le_capOverflow)]

theorem extract_sat_ok (summary_file : String)
    (readFile : String → Except String String) (content : String)
    (h : readFile summary_file = Except.ok content) :
    extract_backend_bound_sat summary_file readFile =
      (match reSearch content.data with
       | none => none
       | some cap => pyFloatSat cap) := by
  unfold extract_backend_bound_sat
  rw [h]

theorem extract_sat_seven :
    extract_backend_bound_sat "n.txt" read7 =
      some (PyFloat.finite ((digitsToNat ("7".data) : ℚ))) := by
  rw [extract_sat_ok "n.txt" read7 "Back-End Bound: 7%" rfl]
  have hs : reSearch ("Back-End Bound: 7%".data) = some ("7".data) := by decide
  rw [hs]
  show pyFloatSat ("7".data) = some (PyFloat.finite ((digitsToNat ("7".data) : ℚ)))
  unfold pyFloatSat
  have hp : pyFloatOfCapture ("7".data) = some ((digitsToNat ("7".data) : ℚ)) := rfl
  rw [hp]
  show some (if ((digitsToNat ("7".data) : ℚ)) < doubleOverflowThreshold
    then PyFloat.finite ((digitsToNat ("7".data) : ℚ)) else PyFloat.inf) =
    some (PyFloat.finite ((digitsToNat ("7".data) : ℚ)))
  have h7 : digitsToNat ("7".data) = 7 := rfl
  have hlt : ((digitsToNat ("7".data) : ℕ) : ℚ) < doubleOverflowThreshold := by
    rw [h7]
    unfold doubleOverflowThreshold
    push_cast
    norm_num
  rw [if_pos hlt]

/-! ### Unfolding of the normal-path run of main -/

theorem main_run_eq (base_dir : String) (fs : FS)
    (hb : fs.pathExists base_dir = true) (h : apps_data base_dir fs ≠ []) :
    main_run base_dir fs =
      ⟨none,
        sortedApps base_dir fs ++ ["Average"],
        sortedValues base_dir fs ++ [average_value base_dir fs],
        (sortedApps base_dir fs).map get_full_app_name ++ [boldAverage],
        ((sortedApps base_dir fs).zip (sortedValues base_dir fs)).map
          (fun p => (get_full_app_name p.1, p.2)),
        some ("Average", average_value base_dir fs),
        [],
        xPositionsOf (sortedApps base_dir fs ++ ["Average"]).length,
        ["backend_bound_plot.png", "backend_bound_plot.pdf", "backend_bound_plot.eps"]⟩ := by
  unfold main_run
  rw [if_neg (by simp [hb]), if_neg (by simpa using h)]

theorem main_run_missing (base_dir : String) (fs : FS)
    (hb : fs.pathExists base_dir = false) :
    main_run base_dir fs =
      ⟨some 1, [], [], [], [], none,
        ["Error: Directory " ++ base_dir ++ " not found!"], [], []⟩ := by
  unfold main_run
  rw [if_pos (by simp [hb])]

theorem main_run_nodata (base_dir : String) (fs : FS)
    (hb : fs.pathExists base_dir = true) (hd : apps_data base_dir fs = []) :
    main_run base_dir fs =
      ⟨some 1, [], [], [], [], none,
        ["No data found! Check if summary files exist and contain Back-End Bound metrics."],
        [], []⟩ := by
  unfold main_run
  rw [if_neg (by simp [hb]), if_pos (by simp [hd])]

theorem extract_value_ok (summary_file : String)
    (readFile : String → Except String String) (content : String)
    (h : readFile summary_file = Except.ok content) :
    (extract_backend_bound summary_file readFile).value =
      (match reSearch content.data with
       | none => none
       | some cap => pyFloatOfCapture cap) := by
  have he : extract_backend_bound summary_file readFile =
      (match reSearch content.data with
       | none => (⟨none, [], 1⟩ : ExtractResult)
       | some cap =>
         match pyFloatOfCapture cap with
         | some v => (⟨some v, [], 1⟩ : ExtractResult)
         | none => (⟨none, ["Error reading " ++ summary_file ++
             ": could not convert string to float: " ++ String.mk cap], 1⟩ :
               ExtractResult)) := by
    unfold extract_backend_bound
    rw [h]
  rw [he]
  cases reSearch content.data with
  | none => rfl
  | some cap =>
    show (match pyFloatOfCapture cap with
      | some v => (⟨some v, [], 1⟩ : ExtractResult)
      | none => (⟨none, ["Error reading " ++ summary_file ++
          ": could not convert string to float: " ++ String.mk cap], 1⟩ :
            ExtractResult)).value = pyFloatOfCapture cap
    cases pyFloatOfCapture cap with
    | none => rfl
    | some v => rfl

theorem extract_sat_refines (summary_file : String)
    (readFile : String → Except String String) :
    extract_backend_bound_sat summary_file readFile =
      (extract_backend_bound summary_file readFile).value.map
        (fun q => if q < doubleOverflowThreshold then PyFloat.finite q
          else PyFloat.inf) := by
  rcases hg : readFile summary_file with e | content
  · unfold extract_backend_bound_sat extract_backend_bound
    rw [hg]
    rfl
  · rw [extract_sat_ok summary_file readFile content hg,
      extract_value_ok summary_file readFile content hg]
    cases reSearch content.data with
    | none => rfl
    | some cap =>
      show pyFloatSat cap = (pyFloatOfCapture cap).map _
      unfold pyFloatSat
      cases pyFloatOfCapture cap with
      | none => rfl
      | some q => rfl

theorem scanStep_ext (base_dir : String) (fs1 fs2 : FS)
    (hd : fs1.isDir = fs2.isDir) (hp : fs1.pathExists = fs2.pathExists)
    (hr : fs1.readFile = fs2.readFile) :
    scanStep base_dir fs1 = scanStep base_dir fs2 := by
  funext acc app
  unfold scanStep
  rw [hd, hp, hr]

theorem apps_data_ext (base_dir : String) (fs1 fs2 : FS)
    (hl : fs1.listdir.Perm fs2.listdir)
    (hd : fs1.isDir = fs2.isDir) (hp : fs1.pathExists = fs2.pathExists)
    (hr : fs1.readFile = fs2.readFile) :
    apps_data base_dir fs1 = apps_data base_dir fs2 := by
  unfold apps_data
  rw [sortedStrings_eq_of_perm hl, scanStep_ext base_dir fs1 fs2 hd hp hr]

theorem main_run_ext (base_dir : String) (fs1 fs2 : FS)
    (hl : fs1.listdir.Perm fs2.listdir)
    (hd : fs1.isDir = fs2.isDir) (hp : fs1.pathExists = fs2.pathExists)
    (hr : fs1.readFile = fs2.readFile) :
    main_run base_dir fs1 = main_run base_dir fs2 := by
  have hdata := apps_data_ext base_dir fs1 fs2 hl hd hp hr
  unfold main_run average_value sortedValues sortedApps
  rw [hdata, hp]

theorem length_dictInsert (d : List (String × ℚ)) (k : String) (v : ℚ) :
    (dictInsert d k v).length ≤ d.length + 1 := by
  induction d with
  | nil => simp [dictInsert]
  | cons p t ih =>
    by_cases h : p.1 = k
    · simp [dictInsert, h]
    · simp only [dictInsert, h, ite_false, List.length_cons]
      omega

theorem length_foldl_scan (base_dir : String) (fs : FS) :
    ∀ (l : List String) (acc : List (String × ℚ)),
    (l.foldl (scanStep base_dir fs) acc).length ≤ acc.length + l.length
  | [], acc => by simp
  | a :: t, acc => by
    rw [List.foldl_cons]
    have h1 := length_foldl_scan base_dir fs t (scanStep base_dir fs acc a)
    have h2 : (scanStep base_dir fs acc a).length ≤ acc.length + 1 := by
      rw [scanStep_eq]
      cases he : entryVal base_dir fs a with
      | some v => exact length_dictInsert acc a v
      | none => exact Nat.le_succ acc.length
    simp only [List.length_cons]
    omega

theorem apps_data_length_le (base_dir : String) (fs : FS) :
    (apps_data base_dir fs).length ≤ fs.listdir.length := by
  have := length_foldl_scan base_dir fs (sortedStrings fs.listdir) []
  simpa [apps_data, sortedStrings_length] using this

/-! ### Claim theorems -/

/-- C1 (counterexample): on the text `Back-End Bound: 1.2.3%` the pattern
occurs (the capture is `1.2.3`), yet `extract_backend_bound` returns `None`
because `float("1.2.3")` raises `ValueError`, so returning `None` is not
limited to texts where the pattern does not occur. -/
theorem C1_counterexample :
    reSearch ("Back-End Bound: 1.2.3%".data) = some ("1.2.3".data) ∧
    (extract_backend_bound "bad_summary.txt"
      (fun _ => Except.ok "Back-End Bound: 1.2.3%")).value = none := by
  constructor
  · decide
  · decide

/-- C1 (amended): when the file reads successfully, `extract_backend_bound`
returns `None` if the pattern matches at no position of the text, and at the
leftmost position where the pattern matches it returns the captured
digits-and-dots group parsed as a float — which is `None` exactly when the
capture fails to parse (no digit, or more than one dot). -/
theorem C1_extract_first_occurrence (summary_file content : String)
    (readFile : String → Except String String)
    (h : readFile summary_file = Except.ok content) :
    ((∀ i, matchAt (content.data.drop i) = none) →
      (extract_backend_bound summary_file readFile).value = none) ∧
    (∀ i cap, matchAt (content.data.drop i) = some cap →
      (∀ j, j < i → matchAt (content.data.drop j) = none) →
      (extract_backend_bound summary_file readFile).value = pyFloatOfCapture cap) := by
  constructor
  · intro hnone
    rw [extract_value_ok summary_file readFile content h,
      reSearch_eq_none_of content.data hnone]
  · intro i cap hm hmin
    rw [extract_value_ok summary_file readFile content h,
      reSearch_eq_some_of content.data i cap hm hmin]

/-- C1 (witness): concrete application of the amended theorem: the summary
text `Back-End Bound: 31.4% of Pipeline Slots` matches at position 0 and the
extracted value is the parse of the capture `31.4`. -/
theorem C1_witness :
    exRead "/base/appA/appA_topdown_summary.txt" =
      Except.ok "Back-End Bound: 31.4% of Pipeline Slots" ∧
    matchAt (("Back-End Bound: 31.4% of Pipeline Slots".data).drop 0) =
      some ("31.4".data) ∧
    (extract_backend_bound "/base/appA/appA_topdown_summary.txt" exRead).value =
      pyFloatOfCapture ("31.4".data) := by
  refine ⟨rfl, by decide, ?_⟩
  exact (C1_extract_first_occurrence "/base/appA/appA_topdown_summary.txt"
      "Back-End Bound: 31.4% of Pipeline Slots" exRead rfl).2
    0 ("31.4".data) (by decide) (fun j hj => absurd hj (Nat.not_lt_zero j))

/-- C2: when at least one entity yielded a value, the value appended under
the label `Average` is the arithmetic mean of exactly the extracted
per-entity values: their sum divided by their count. -/
theorem C2_average_is_mean (base_dir : String) (fs : FS)
    (hb : fs.pathExists base_dir = true) (hne : apps_data base_dir fs ≠ []) :
    (main_run base_dir fs).apps.getLast? = some "Average" ∧
    (main_run base_dir fs).values.getLast? =
      some (((apps_data base_dir fs).map Prod.snd).sum /
        ((apps_data base_dir fs).length : ℚ)) := by
  rw [main_run_eq base_dir fs hb hne]
  constructor
  · exact List.getLast?_concat _
  · rw [List.getLast?_concat]
    have hsum : (sortedValues base_dir fs).sum =
        ((apps_data base_dir fs).map Prod.snd).sum :=
      (values0_perm _ (nodup_keys_apps_data base_dir fs)).sum_eq
    have hlen : (sortedValues base_dir fs).length = (apps_data base_dir fs).length := by
      unfold sortedValues sortedApps
      rw [List.length_map, sortedStrings_length, List.length_map]
    unfold average_value
    rw [hsum, hlen]

/-- C2 (witness): concrete run in which the appended label is `Average`. -/
theorem C2_witness :
    exFS.pathExists "/base" = true ∧ apps_data "/base" exFS ≠ [] ∧
    (main_run "/base" exFS).apps.getLast? = some "Average" :=
  ⟨by decide, by decide, (C2_average_is_mean "/base" exFS (by decide) (by decide)).1⟩

/-- C3: the aggregated data has no duplicate entity, and an entity `app` is
mapped to `v` exactly when `app` is a listing entry that is a directory,
its summary file `app/app_topdown_summary.txt` exists under the base
directory, and `extract_backend_bound` returns `v` for that file. -/
theorem C3_apps_data_characterization (base_dir : String) (fs : FS)
    (app : String) (v : ℚ) :
    ((apps_data base_dir fs).map Prod.fst).Nodup ∧
    (dictFind (apps_data base_dir fs) app = some v ↔
      app ∈ fs.listdir ∧ fs.isDir (os_path_join base_dir app) = true ∧
      fs.pathExists (summaryPath base_dir app) = true ∧
      (extract_backend_bound (summaryPath base_dir app) fs.readFile).value = some v) := by
  refine ⟨nodup_keys_apps_data base_dir fs, ?_⟩
  rw [dictFind_apps_data]
  constructor
  · intro h
    by_cases hc : app ∈ fs.listdir ∧ (entryVal base_dir fs app).isSome = true
    · rw [if_pos hc] at h
      unfold entryVal at h
      split_ifs at h with h1 h2
      exact ⟨hc.1, by simpa using h1, h2, h⟩
    · rw [if_neg hc] at h
      cases h
  · rintro ⟨hmem, hdir, hex, hval⟩
    have hent : entryVal base_dir fs app = some v := by
      unfold entryVal
      rw [if_neg (by simp [hdir]), if_pos hex]
      exact hval
    rw [if_pos ⟨hmem, by rw [hent]; rfl⟩, hent]

/-- C4: when the read raises, `extract_backend_bound` returns `None` after
printing an error line; and for every reader the file is read exactly once,
with the result always delivered as a value (no exception escapes, which the
embedding reflects by totality of the function into `ExtractResult`). -/
theorem C4_read_error_handling (summary_file e : String)
    (readFile : String → Except String String)
    (h : readFile summary_file = Except.error e) :
    (extract_backend_bound summary_file readFile).value = none ∧
    (extract_backend_bound summary_file readFile).errors ≠ [] ∧
    (∀ g : String → Except String String,
      (extract_backend_bound summary_file g).readAttempts = 1) := by
  refine ⟨?_, ?_, ?_⟩
  · unfold extract_backend_bound
    rw [h]
  · unfold extract_backend_bound
    rw [h]
    simp
  · intro g
    unfold extract_backend_bound
    split
    · rfl
    · split
      · rfl
      · split
        · rfl
        · rfl

/-- C4 (witness): a concrete failing read yields `None`. -/
theorem C4_witness :
    exRead "/missing" = Except.error "missing" ∧
    (extract_backend_bound "/missing" exRead).value = none :=
  ⟨rfl, (C4_read_error_handling "/missing" "missing" exRead rfl).1⟩

/-- C5: whenever the base directory exists and aggregation yielded at least
one value, the run finishes normally and saves exactly the three figure
files png, pdf and eps. -/
theorem C5_saves_three_files (base_dir : String) (fs : FS)
    (hb : fs.pathExists base_dir = true) (hne : apps_data base_dir fs ≠ []) :
    (main_run base_dir fs).savedFiles =
      ["backend_bound_plot.png", "backend_bound_plot.pdf", "backend_bound_plot.eps"] ∧
    (main_run base_dir fs).exitCode = none := by
  rw [main_run_eq base_dir fs hb hne]
  exact ⟨rfl, rfl⟩

/-- C5 (witness): concrete run saving the three files. -/
theorem C5_witness :
    exFS.pathExists "/base" = true ∧ apps_data "/base" exFS ≠ [] ∧
    (main_run "/base" exFS).savedFiles =
      ["backend_bound_plot.png", "backend_bound_plot.pdf", "backend_bound_plot.eps"] :=
  ⟨by decide, by decide, (C5_saves_three_files "/base" exFS (by decide) (by decide)).1⟩

/-- C6: every bar is labeled: the tick labels are the display names of the
entity bars (`get_full_app_name`, which returns the mapped full name for the
five mapped short names and the directory name itself otherwise) followed by
the bold `Average` label for the appended average bar, and the number of
tick labels equals the number of bars. -/
theorem C6_all_bars_labeled (base_dir : String) (fs : FS)
    (hb : fs.pathExists base_dir = true) (hne : apps_data base_dir fs ≠ []) :
    (main_run base_dir fs).apps_labels =
      ((main_run base_dir fs).apps.dropLast).map get_full_app_name ++ [boldAverage] ∧
    (main_run base_dir fs).apps_labels.getLast? = some boldAverage ∧
    (main_run base_dir fs).apps_labels.length =
      ((main_run base_dir fs).xPositions.zip (main_run base_dir fs).values).length ∧
    name_map.length = 5 ∧
    (∀ app full, dictFind name_map app = some full → get_full_app_name app = full) ∧
    (∀ app, dictFind name_map app = none → get_full_app_name app = app) := by
  rw [main_run_eq base_dir fs hb hne]
  refine ⟨?_, ?_, ?_, rfl, ?_, ?_⟩
  · rw [List.dropLast_concat]
  · exact List.getLast?_concat _
  · have hv : (sortedValues base_dir fs).length = (sortedApps base_dir fs).length := by
      unfold sortedValues
      rw [List.length_map]
    rw [List.length_zip]
    unfold xPositionsOf
    rw [List.length_map, List.length_range]
    simp only [List.length_append, List.length_map, List.length_cons,
      List.length_nil, hv]
    omega
  · intro app full h
    unfold get_full_app_name
    rw [h]
    rfl
  · intro app h
    unfold get_full_app_name
    rw [h]
    rfl

/-- C6 (witness): concrete run whose final tick label is the bold Average. -/
theorem C6_witness :
    exFS.pathExists "/base" = true ∧ apps_data "/base" exFS ≠ [] ∧
    (main_run "/base" exFS).apps_labels.getLast? = some boldAverage :=
  ⟨by decide, by decide, (C6_all_bars_labeled "/base" exFS (by decide) (by decide)).2.1⟩

/-- C7: the loops of `main` are single passes over finite lists: the
aggregation visits each listing entry once and stores at most one row per
entry, and the bars, labels and printed rows are bounded by the number of
listing entries plus the one appended average; the embedding of the whole
run is a total structurally-recursive function, so every run terminates. -/
theorem C7_single_pass_bounds (base_dir : String) (fs : FS) :
    (apps_data base_dir fs).length ≤ fs.listdir.length ∧
    (main_run base_dir fs).apps.length ≤ fs.listdir.length + 1 ∧
    (main_run base_dir fs).values.length ≤ fs.listdir.length + 1 ∧
    (main_run base_dir fs).summaryRows.length ≤ fs.listdir.length := by
  have hlen := apps_data_length_le base_dir fs
  by_cases hb : fs.pathExists base_dir = true
  · by_cases hd : apps_data base_dir fs = []
    · rw [main_run_nodata base_dir fs hb hd]
      exact ⟨hlen, by simp, by simp, by simp⟩
    · rw [main_run_eq base_dir fs hb hd]
      have ha : (sortedApps base_dir fs).length = (apps_data base_dir fs).length := by
        unfold sortedApps
        rw [sortedStrings_length, List.length_map]
      have hv : (sortedValues base_dir fs).length = (apps_data base_dir fs).length := by
        unfold sortedValues
        rw [List.length_map, ha]
      refine ⟨hlen, ?_, ?_, ?_⟩
      · simp only [List.length_append, List.length_cons, List.length_nil]
        omega
      · simp only [List.length_append, List.length_cons, List.length_nil]
        omega
      · simp only [List.length_map, List.length_zip]
        omega
  · rw [main_run_missing base_dir fs (by simpa using hb)]
    exact ⟨hlen, by simp, by simp, by simp⟩

set_option maxRecDepth 40000 in
/-- C8 (counterexample): on a summary whose captured percentage is the digit
`1` followed by 399 zeros, Python `float()` saturates to `inf` instead of
raising, so `extract_backend_bound` returns a value that is not finite. -/
theorem C8_counterexample :
    extract_backend_bound_sat "overflow_summary.txt"
      (fun _ => Except.ok overflowContent) = some PyFloat.inf := by
  rw [extract_sat_ok "overflow_summary.txt" (fun _ => Except.ok overflowContent)
    overflowContent rfl]
  have hs : reSearch overflowContent.data = some capOverflow := by decide
  rw [hs]
  exact pyFloatSat_capOverflow

/-- C8 (amended): every value returned by `extract_backend_bound` under the
float model with overflow saturation is non-negative, but not necessarily
finite: it is either `+inf` (when the captured digits-and-dots group parses
to at least the IEEE double overflow threshold) or a non-negative finite
value below that threshold; captures on which numeric parsing fails are
caught by the exception handler and yield `None` instead. -/
theorem C8_value_nonneg_or_inf (summary_file : String)
    (readFile : String → Except String String) (w : PyFloat)
    (h : extract_backend_bound_sat summary_file readFile = some w) :
    w = PyFloat.inf ∨
      ∃ q : ℚ, w = PyFloat.finite q ∧ 0 ≤ q ∧ q < doubleOverflowThreshold := by
  rcases hg : readFile summary_file with e | content
  · unfold extract_backend_bound_sat at h
    rw [hg] at h
    simp at h
  · rw [extract_sat_ok summary_file readFile content hg] at h
    cases hs : reSearch content.data with
    | none => rw [hs] at h; cases h
    | some cap =>
      rw [hs] at h
      have h2 : pyFloatSat cap = some w := h
      unfold pyFloatSat at h2
      cases hp : pyFloatOfCapture cap with
      | none =>
        rw [hp] at h2
        have h3 : (none : Option PyFloat) = some w := h2
        cases h3
      | some q =>
        rw [hp] at h2
        have h' : some (if q < doubleOverflowThreshold then PyFloat.finite q
            else PyFloat.inf) = some w := h2
        have hq := pyFloatOfCapture_nonneg cap q hp
        by_cases hlt : q < doubleOverflowThreshold
        · right
          refine ⟨q, ?_, hq, hlt⟩
          rw [if_pos hlt] at h'
          exact (Option.some_inj.mp h').symm
        · left
          rw [if_neg hlt] at h'
          exact (Option.some_inj.mp h').symm

/-- C8 (witness): the value extracted from `Back-End Bound: 7%` is the
finite non-negative value 7, below the overflow threshold. -/
theorem C8_witness :
    extract_backend_bound_sat "n.txt" read7 =
      some (PyFloat.finite ((digitsToNat ("7".data) : ℚ))) ∧
    (PyFloat.finite ((digitsToNat ("7".data) : ℚ)) = PyFloat.inf ∨
      ∃ q : ℚ, PyFloat.finite ((digitsToNat ("7".data) : ℚ)) = PyFloat.finite q ∧
        0 ≤ q ∧ q < doubleOverflowThreshold) :=
  ⟨extract_sat_seven, C8_value_nonneg_or_inf "n.txt" read7 _ extract_sat_seven⟩

/-- C9: a missing base directory, or an aggregation that produced no value,
makes the run print an error, exit with status 1, and save no image file. -/
theorem C9_early_exit (base_dir : String) (fs : FS)
    (h : fs.pathExists base_dir = false ∨
      (fs.pathExists base_dir = true ∧ apps_data base_dir fs = [])) :
    (main_run base_dir fs).exitCode = some 1 ∧
    (main_run base_dir fs).savedFiles = [] ∧
    (main_run base_dir fs).errorPrints ≠ [] := by
  rcases h with hb | ⟨hb, hd⟩
  · rw [main_run_missing base_dir fs hb]
    exact ⟨rfl, rfl, by simp⟩
  · rw [main_run_nodata base_dir fs hb hd]
    exact ⟨rfl, rfl, by simp⟩

/-- C9 (witness): a run on a missing base directory exits with status 1. -/
theorem C9_witness :
    exFS.pathExists "/nodir" = false ∧
    (main_run "/nodir" exFS).exitCode = some 1 :=
  ⟨by decide, (C9_early_exit "/nodir" exFS (Or.inl (by decide))).1⟩

/-- C10: two runs over the same filesystem contents whose directory listings
are permutations of each other produce identical results; the entity bars
are in ascending lexicographic order of directory name and, on a normal
run, the appended average occupies the final position. -/
theorem C10_order_independent (base_dir : String) (fs1 fs2 : FS)
    (hl : fs1.listdir.Perm fs2.listdir)
    (hd : fs1.isDir = fs2.isDir) (hp : fs1.pathExists = fs2.pathExists)
    (hr : fs1.readFile = fs2.readFile) :
    main_run base_dir fs1 = main_run base_dir fs2 ∧
    List.Sorted (fun a b => strLe a b = true) (main_run base_dir fs1).apps.dropLast ∧
    ((main_run base_dir fs1).exitCode = none →
      (main_run base_dir fs1).apps.getLast? = some "Average") := by
  refine ⟨main_run_ext base_dir fs1 fs2 hl hd hp hr, ?_, ?_⟩ <;>
    by_cases hb : fs1.pathExists base_dir = true
  case pos =>
    by_cases hdata : apps_data base_dir fs1 = []
    · rw [main_run_nodata base_dir fs1 hb hdata]
      exact List.sorted_nil
    · rw [main_run_eq base_dir fs1 hb hdata]
      show List.Sorted _ (sortedApps base_dir fs1 ++ ["Average"]).dropLast
      rw [List.dropLast_concat]
      exact sortedStrings_sorted _
  case neg =>
    rw [main_run_missing base_dir fs1 (by simpa using hb)]
    exact List.sorted_nil
  case pos =>
    by_cases hdata : apps_data base_dir fs1 = []
    · rw [main_run_nodata base_dir fs1 hb hdata]
      intro hc
      cases hc
    · rw [main_run_eq base_dir fs1 hb hdata]
      intro _
      exact List.getLast?_concat _
  case neg =>
    rw [main_run_missing base_dir fs1 (by simpa using hb)]
    intro hc
    cases hc

/-- C10 (witness): two concrete listing orders of the same contents give the
same run. -/
theorem C10_witness :
    exFS.listdir.Perm exFS2.listdir ∧
    main_run "/base" exFS = main_run "/base" exFS2 :=
  ⟨by decide, (C10_order_independent "/base" exFS exFS2 (by decide) rfl rfl rfl).1⟩

end PlotTopdown
